import Mathlib

/-!
Verification of the Letterboxd diary proxy (netlify/functions/letterboxd-proxy.js).

JavaScript strings are modelled as lists of characters (the diary pages and
identifiers handled by the code are plain code-point sequences, so a list of
characters is a faithful rendering).  JavaScript builtins used by the source
(String.prototype.trim, String.prototype.includes, String.prototype.replace,
Number coercion inside isNaN, parseInt, new Date) are given explicit
executable models below, following the ECMAScript specification of each
builtin on the inputs the program can produce.
-/

abbrev Str := List Char

/-- ECMAScript WhiteSpace and LineTerminator characters, as used by
String.prototype.trim and by string-to-number coercion. -/
def isJsWs (c : Char) : Bool :=
  c = ' ' || c = '\t' || c = '\n' || c = '\r' || c = '\x0b' || c = '\x0c' ||
  c = '\xa0' || c = '\u2028' || c = '\u2029' || c = '\uFEFF'

/-- Model of String.prototype.trim: drop leading and trailing whitespace. -/
def jsTrim (s : Str) : Str :=
  ((s.dropWhile isJsWs).reverse.dropWhile isJsWs).reverse

/-- Nonempty all-decimal-digit run (DecimalDigits in the ECMAScript
StringNumericLiteral grammar). -/
def decDigitsNE (l : Str) : Bool :=
  !l.isEmpty && l.all Char.isDigit

/-- ExponentPart of the StringNumericLiteral grammar: e or E, an optional
sign, then a nonempty digit run, consuming the whole remaining input. -/
def expPart (l : Str) : Bool :=
  match l with
  | c :: rest =>
    (c = 'e' || c = 'E') &&
      (match rest with
       | s :: r2 => if s = '+' || s = '-' then decDigitsNE r2 else decDigitsNE rest
       | [] => false)
  | [] => false

/-- Splits a list into its longest decimal-digit run and the remainder. -/
def splitDigits (l : Str) : Str × Str :=
  (l.takeWhile Char.isDigit, l.dropWhile Char.isDigit)

/-- StrUnsignedDecimalLiteral of the StringNumericLiteral grammar:
Infinity, digits [. digits] [exponent], or . digits [exponent]. -/
def strUnsignedDec (l : Str) : Bool :=
  l = "Infinity".toList ||
  (let p := splitDigits l
   match p.2 with
   | [] => !p.1.isEmpty
   | '.' :: r2 =>
     let q := splitDigits r2
     (!p.1.isEmpty || !q.1.isEmpty) && (q.2.isEmpty || expPart q.2)
   | _ => !p.1.isEmpty && expPart p.2)

/-- StrDecimalLiteral: optionally signed StrUnsignedDecimalLiteral. -/
def strSignedDec (l : Str) : Bool :=
  match l with
  | c :: r => if c = '+' || c = '-' then strUnsignedDec r else strUnsignedDec l
  | [] => false

def isHexDig (c : Char) : Bool :=
  c.isDigit || ('a' ≤ c && c ≤ 'f') || ('A' ≤ c && c ≤ 'F')

/-- NonDecimalIntegerLiteral: 0x / 0o / 0b forms accepted by Number coercion. -/
def nonDecInt (l : Str) : Bool :=
  match l with
  | '0' :: x :: r =>
    ((x = 'x' || x = 'X') && !r.isEmpty && r.all isHexDig) ||
    ((x = 'o' || x = 'O') && !r.isEmpty && r.all (fun c => '0' ≤ c && c ≤ '7')) ||
    ((x = 'b' || x = 'B') && !r.isEmpty && r.all (fun c => c = '0' || c = '1'))
  | _ => false

/-- Model of the predicate !isNaN(s) for a JavaScript string s: whether
ToNumber(s) is not NaN.  Per ECMAScript, the trimmed string must be empty
(coerces to 0) or match the StringNumericLiteral grammar. -/
def jsStringNotNaN (l : Str) : Bool :=
  let t := jsTrim l
  t.isEmpty || strSignedDec t || nonDecInt t

/-- Decomposes a list at its last occurrence of a hyphen: returns the part
before and the part after that hyphen, or none when no hyphen occurs.  This
renders slug.lastIndexOf, slug.slice(lastHyphenIndex + 1) and
slug.slice(0, lastHyphenIndex) from the source in one structural pass. -/
def splitAtLastHyphen : Str → Option (Str × Str)
  | [] => none
  | c :: cs =>
    match splitAtLastHyphen cs with
    | some (pre, post) => some (c :: pre, post)
    | none => if c = '-' then some ([], cs) else none

/-- Embedding of stripYearFromSlug (letterboxd-proxy.js lines 110-121).
The truthiness test on slug is the nonemptiness test; the year test of the
source is possibleYear.length === 4 together with !isNaN(possibleYear). -/
def stripYearFromSlug (slug : Str) : Str :=
  if slug ≠ [] ∧ 5 ≤ slug.length then
    match splitAtLastHyphen slug with
    | some (pre, post) =>
      if post.length = 4 ∧ jsStringNotNaN post = true then pre else slug
    | none => slug
  else slug

/-- The exact condition under which stripYearFromSlug shortens its input. -/
def strippable (slug : Str) : Bool :=
  (decide (slug ≠ []) && decide (5 ≤ slug.length)) &&
  (match splitAtLastHyphen slug with
   | some p => decide (p.2.length = 4) && jsStringNotNaN p.2
   | none => false)

/-- Rendering of claim C1 as written: strip the trailing block exactly when
the last five characters are a hyphen followed by four decimal digits (which
is equivalent to the wording: length at least 5, a hyphen occurs, the
substring after the last hyphen has exactly 4 characters, all digits). -/
def specStripDigits (l : Str) : Str :=
  match l.drop (l.length - 5) with
  | ['-', a, b, c, d] =>
    if [a, b, c, d].all Char.isDigit then l.take (l.length - 5) else l
  | _ => l

/-- Amended rendering of claim C1: same shape, but the four trailing
characters are required to be hyphen-free and recognized as numeric by
JavaScript Number coercion, instead of being four decimal digits. -/
def specStripJsNumeric (l : Str) : Str :=
  match l.drop (l.length - 5) with
  | ['-', a, b, c, d] =>
    if [a, b, c, d].all (fun x => x ≠ '-') ∧ jsStringNotNaN [a, b, c, d] = true then
      l.take (l.length - 5)
    else l
  | _ => l

/-- A JavaScript number produced by parseInt: an integer or NaN. -/
inductive JsNum where
  | nan : JsNum
  | int : Int → JsNum
  deriving DecidableEq

/-- A JavaScript Date object: either an invalid date (its time value is NaN)
or a calendar date at UTC midnight, as produced by parsing a date-only
string. -/
inductive JsDate where
  | invalid : JsDate
  | valid : Nat → Nat → Nat → JsDate
  deriving DecidableEq

def digitVal (c : Char) : Nat := c.toNat - '0'.toNat

/-- Decimal value of a digit string. -/
def digitsToNat (l : Str) : Nat := l.foldl (fun a c => 10 * a + digitVal c) 0

/-- Model of parseInt(s, 10): skip leading whitespace, read an optional sign
and then the longest prefix of decimal digits; NaN when no digit follows. -/
def parseInt10 (s : Str) : JsNum :=
  match s.dropWhile isJsWs with
  | [] => JsNum.nan
  | c :: r =>
    let sgn : Int := if c = '-' then -1 else 1
    let t2 : Str := if c = '+' || c = '-' then r else c :: r
    let ds := t2.takeWhile Char.isDigit
    if ds.isEmpty then JsNum.nan else JsNum.int (sgn * (digitsToNat ds : Int))

def isLeapYear (y : Nat) : Bool :=
  (y % 4 = 0 && y % 100 ≠ 0) || y % 400 = 0

def daysInMonth (y m : Nat) : Nat :=
  if m = 2 then (if isLeapYear y then 29 else 28)
  else if m = 4 ∨ m = 6 ∨ m = 9 ∨ m = 11 then 30
  else 31

/-- MakeDay-style arithmetic on a syntactically in-range day: a day beyond
the length of the month rolls over into the following month (ECMAScript
computes the time value from year, month and day arithmetically rather than
validating the day against the month). -/
def rollOverDate (y m d : Nat) : JsDate :=
  if d ≤ daysInMonth y m then JsDate.valid y m d
  else if m = 12 then JsDate.valid (y + 1) 1 (d - daysInMonth y 12)
  else JsDate.valid y (m + 1) (d - daysInMonth y m)

/-- Model of new Date(s) for the strings the program builds, following the
ECMAScript Date Time String Format restricted to date-only forms: exactly
YYYY-MM-DD with decimal digits, month syntactically 01-12 and day
syntactically 01-31; the time value is computed arithmetically, so a day
beyond the month length rolls over into the following month (2023-02-31
is the date 2023-03-03).  Strings outside this format are modelled as an
invalid date; engines may parse some of them through implementation-defined
fallback formats, and no claim below relies on the result of such a
fallback. -/
def jsNewDate (s : Str) : JsDate :=
  match s with
  | [y1, y2, y3, y4, '-', m1, m2, '-', d1, d2] =>
    if ([y1, y2, y3, y4, m1, m2, d1, d2].all Char.isDigit) = true then
      if 1 ≤ digitsToNat [m1, m2] ∧ digitsToNat [m1, m2] ≤ 12 ∧
          1 ≤ digitsToNat [d1, d2] ∧ digitsToNat [d1, d2] ≤ 31 then
        rollOverDate (digitsToNat [y1, y2, y3, y4]) (digitsToNat [m1, m2])
          (digitsToNat [d1, d2])
      else JsDate.invalid
    else JsDate.invalid
  | _ => JsDate.invalid

/-- Whether a JsDate is a valid calendar date: month in range and day within
the length of that month. -/
def isValidCalendarDate : JsDate → Bool
  | JsDate.invalid => false
  | JsDate.valid y m d =>
    decide (1 ≤ m) && decide (m ≤ 12) && decide (1 ≤ d) &&
      decide (d ≤ daysInMonth y m)

/-- Model of s.split(sep) for a single-character separator. -/
def splitOnCharAux (c : Char) : Str → Str → List Str
  | [], cur => [cur.reverse]
  | x :: xs, cur =>
    if x = c then cur.reverse :: splitOnCharAux c xs []
    else splitOnCharAux c xs (x :: cur)

def splitOnChar (c : Char) (l : Str) : List Str := splitOnCharAux c l []

/-- Model of s.includes(pat): substring containment. -/
def jsIncludes : Str → Str → Bool
  | [], pat => pat.isEmpty
  | x :: xs, pat => pat.isPrefixOf (x :: xs) || jsIncludes xs pat

/-- Model of s.replace(pat, rep) with a string pattern: replace the first
occurrence only. -/
def jsReplaceFirst : Str → Str → Str → Str
  | [], pat, rep => if pat.isEmpty then rep else []
  | x :: xs, pat, rep =>
    if pat.isPrefixOf (x :: xs) then rep ++ (x :: xs).drop pat.length
    else x :: jsReplaceFirst xs pat rep

/-!
One diary row of the fetched markup is modelled by the results of the
row-level selector reads that getMovieDataFromHtml performs on it: each
field holds what the corresponding cheerio query returns on that row
(attributes are None when the attribute is missing, Some of the attribute
text otherwise; the title text is the empty string when the heading element
is missing, matching the text() convention; likedIcons is the number of
elements the liked-icon selector finds).
-/
structure DiaryRow where
  filmIdAttr : Option Str
  filmSlugAttr : Option Str
  titleText : Str
  dayHref : Option Str
  ratingValueAttr : Option Str
  likedIcons : Nat
  deriving DecidableEq

/-- One entry of the response, as pushed by getMovieDataFromHtml line 103. -/
structure Movie where
  filmId : Option Str
  title : Str
  posterUrl : Option Str
  watchDate : Option JsDate
  rating : Option JsNum
  isLiked : Bool
  deriving DecidableEq

/-- Embedding of the film id extraction (line 64): the data-film-id
attribute when it is truthy (present and nonempty), trimmed; null
otherwise. -/
def extractFilmId (filmIdAttr : Option Str) : Option Str :=
  match filmIdAttr with
  | some a => if a ≠ [] then some (jsTrim a) else none
  | none => none

/-- Embedding of the film slug extraction (line 65): as for the id, with the
year stripped from the trimmed slug. -/
def extractFilmSlug (filmSlugAttr : Option Str) : Option Str :=
  match filmSlugAttr with
  | some a => if a ≠ [] then some (stripYearFromSlug (jsTrim a)) else none
  | none => none

/-- Embedding of the poster URL construction (lines 71-76): built only when
both the film id and the slug are truthy (non-null and nonempty); the id is
split into single characters joined by slashes and placed between the fixed
prefix and the id-slug-crop suffix. -/
def buildPosterUrl (filmId filmSlug : Option Str) : Option Str :=
  match filmId, filmSlug with
  | some fid, some slug =>
    if fid ≠ [] ∧ slug ≠ [] then
      some ("https://a.ltrbxd.com/resized/film-poster/".toList ++
        (List.intercalate ['/'] (fid.map (fun c => [c])) ++
          '/' :: (fid ++ '-' :: (slug ++ "-0-300-0-450-crop.jpg".toList))))
    else none
  | _, _ => none

/-- The segment list of a date-link address: split on slash, empty segments
dropped (dateUrl.split('/').filter(Boolean), line 82). -/
def datePartsOf (dateUrl : Str) : List Str :=
  (splitOnChar '/' dateUrl).filter (fun p => !p.isEmpty)

/-- Embedding of the watch-date extraction (lines 79-90): read the date-link
address, split it on slash, drop empty segments, find the "for" marker, and
when at least three segments follow it, build the year-month-day string and
give it to new Date. -/
def extractWatchDate (dayHref : Option Str) : Option JsDate :=
  match dayHref with
  | some dateUrl =>
    if dateUrl ≠ [] then
      match (datePartsOf dateUrl).findIdx? (fun p => p = "for".toList) with
      | some forIndex =>
        if forIndex + 3 < (datePartsOf dateUrl).length then
          some (jsNewDate (((datePartsOf dateUrl).getD (forIndex + 1) []) ++
            '-' :: (((datePartsOf dateUrl).getD (forIndex + 2) []) ++
              '-' :: ((datePartsOf dateUrl).getD (forIndex + 3) []))))
        else none
      | none => none
    else none
  | none => none

/-- Embedding of the rating extraction (lines 93-97): the value attribute of
the rating input, run through parseInt exactly when the attribute exists. -/
def extractRating (ratingValueAttr : Option Str) : Option JsNum :=
  match ratingValueAttr with
  | some v => some (parseInt10 v)
  | none => none

/-- Embedding of the body of the per-row loop of getMovieDataFromHtml
(lines 57-104). -/
def rowToMovie (r : DiaryRow) : Movie :=
  let filmId := extractFilmId r.filmIdAttr
  let filmSlug := extractFilmSlug r.filmSlugAttr
  { filmId := filmId
    title := jsTrim r.titleText
    posterUrl := buildPosterUrl filmId filmSlug
    watchDate := extractWatchDate r.dayHref
    rating := extractRating r.ratingValueAttr
    isLiked := 0 < r.likedIcons }

/-!
One fetched page is modelled by the results of the document-level cheerio
queries the three parse functions perform on it: the number of pagination
items, the document title text, the avatar image address, and the list of
diary rows in document order.
-/
structure Html where
  paginatePages : Nat
  titleText : Str
  avatarSrc : Option Str
  diaryRows : List DiaryRow
  deriving DecidableEq

structure MovieData where
  movies : List Movie
  deriving DecidableEq

structure UserData where
  name : Str
  profilePicUrl : Option Str
  deriving DecidableEq

/-- Embedding of getPageCountFromHtml (lines 24-28): the number of
pagination page items found. -/
def getPageCountFromHtml (h : Html) : Nat := h.paginatePages

/-- Embedding of getUserDataFromHtml (lines 31-50): the name is the trimmed
document title up to the first locale apostrophe, trimmed and with its first
character dropped; the avatar address is kept only when it contains the
small-thumbnail naming pattern, which is rewritten to the large-thumbnail
pattern. -/
def getUserDataFromHtml (h : Html) : UserData :=
  let pageTitle := jsTrim h.titleText
  let name := (jsTrim (pageTitle.takeWhile (fun c => c ≠ '’'))).drop 1
  let profilePicUrl : Option Str :=
    match h.avatarSrc with
    | some src =>
      if src ≠ [] ∧ jsIncludes src "-0-48-0-48-crop".toList = true then
        some (jsReplaceFirst src "-0-48-0-48-crop".toList
          "-0-220-0-220-crop".toList)
      else none
    | none => none
  { name := name, profilePicUrl := profilePicUrl }

/-- Embedding of getMovieDataFromHtml (lines 53-107): every diary row, in
document order, mapped through the per-row extraction. -/
def getMovieDataFromHtml (h : Html) : MovieData :=
  { movies := h.diaryRows.map rowToMovie }

/-- The watchDate field as it appears in the JSON response body:
Date.prototype.toJSON serializes an invalid date as null and a valid one as
an ISO timestamp at UTC midnight carrying its calendar date. -/
def dateJson : Option JsDate → Option (Nat × Nat × Nat)
  | some (JsDate.valid y m d) => some (y, m, d)
  | some JsDate.invalid => none
  | none => none

/-- The rating field as it appears in the JSON response body:
JSON.stringify serializes NaN as null. -/
def ratingJson : Option JsNum → Option Int
  | some (JsNum.int n) => some n
  | some JsNum.nan => none
  | none => none

/-- Outcome of one fetch chain (fetch plus reading the body text): either a
fulfilled response carrying its HTTP status and parsed page markup, or a
rejection carrying a message.  An HTTP error status is a fulfilled response,
not a rejection. -/
inductive FetchOutcome where
  | ok : Nat → Html → FetchOutcome
  | err : Str → FetchOutcome
  deriving DecidableEq

def natToCharsAux : Nat → Nat → Str
  | 0, _ => []
  | fuel + 1, n =>
    if n < 10 then [Char.ofNat (48 + n)]
    else natToCharsAux fuel (n / 10) ++ [Char.ofNat (48 + n % 10)]

/-- Decimal digit string of a number, as template interpolation renders
page numbers. -/
def natToChars (n : Nat) : Str := natToCharsAux (n + 1) n

/-- Embedding of the pagination planner (lines 155-159): the addresses
url ++ "page/i/" for i = 2 .. pageCount, in page order; empty when
pageCount is at most 1. -/
def pageUrlsFor (url : Str) (pageCount : Nat) : List Str :=
  (List.range' 2 (pageCount - 1)).map
    (fun i => url ++ "page/".toList ++ natToChars i ++ ['/'])

/-- The response body the handler serializes: the error object of the 400
and 500 responses, or the movies-name-profilePicUrl payload. -/
inductive Body where
  | errBody : Str → Body
  | okBody : List Movie → Str → Option Str → Body
  deriving DecidableEq

structure HandlerResult where
  statusCode : Nat
  body : Body
  deriving DecidableEq

/-- First value bound to a key in an association list. -/
def lookupFst {α : Type} (i : Nat) : List (Nat × α) → Option α
  | [] => none
  | (j, v) :: rest => if j = i then some v else lookupFst i rest

/-- The first rejection among the settled jobs, scanned in completion
order. -/
def firstErrInOrder {α : Type} (jobs : List (Except Str α)) :
    List Nat → Option Str
  | [] => none
  | i :: rest =>
    match jobs[i]? with
    | some (Except.error m) => some m
    | _ => firstErrInOrder jobs rest

def exValD {α : Type} (dflt : α) : Except Str α → α
  | Except.ok v => v
  | Except.error _ => dflt

/-- The fulfilled values keyed by job index, listed in completion order. -/
def settledPairs {α : Type} (dflt : α) (jobs : List (Except Str α))
    (order : List Nat) : List (Nat × α) :=
  order.map (fun j => (j, exValD dflt (jobs.getD j (Except.ok dflt))))

/-- Reading the settled values back in issue order, by index. -/
def assembleByIndex {α : Type} (dflt : α) (n : Nat)
    (settled : List (Nat × α)) : List α :=
  (List.range n).map (fun i => (lookupFst i settled).getD dflt)

/-- Model of Promise.all over an issued job list: order lists the positions
of the jobs in the order their fetches settle.  The first rejection in
completion order rejects the combinator; when every job fulfills, the
results array is indexed by issue position, independent of completion
order. -/
def promiseAll {α : Type} (dflt : α) (jobs : List (Except Str α))
    (order : List Nat) : Except Str (List α) :=
  match firstErrInOrder jobs order with
  | some m => Except.error m
  | none =>
    Except.ok (assembleByIndex dflt jobs.length (settledPairs dflt jobs order))

/-- The entry list a subsequent page contributes: the parsed movies of its
fulfilled response, nothing for a rejected fetch (a rejected fetch rejects
the whole request, so this default never reaches a returned body). -/
def pageMovies (net : Str → FetchOutcome) (p : Str) : List Movie :=
  match net p with
  | FetchOutcome.ok _ h2 => (getMovieDataFromHtml h2).movies
  | FetchOutcome.err _ => []

/-- Embedding of handler (lines 123-193).  The two effects are made
explicit: net maps each URL to the outcome of its fetch chain, and order is
the completion order of the concurrent page-2..N batch (positions into the
issued job list).  The value is paired with the list of URLs fetched during
the run, in issue order, so that the no-network-call properties can be
stated.  The event argument models event.queryStringParameters (outer
Option) and its url member (inner Option). -/
def handler (event : Option (Option Str)) (net : Str → FetchOutcome)
    (order : List Nat) : HandlerResult × List Str :=
  match event with
  | none =>
    ({ statusCode := 400, body := Body.errBody "No URL provided".toList }, [])
  | some urlOpt =>
    match urlOpt with
    | none =>
      ({ statusCode := 400, body := Body.errBody "No URL provided".toList }, [])
    | some url =>
      if url = [] then
        ({ statusCode := 400, body := Body.errBody "No URL provided".toList },
         [])
      else if ¬ ("https://letterboxd.com/".toList <+: url) then
        ({ statusCode := 400, body := Body.errBody "Invalid URL".toList }, [])
      else
        match net url with
        | FetchOutcome.err m =>
          ({ statusCode := 500,
             body := Body.errBody ("Failed to fetch data: ".toList ++ m) },
           [url])
        | FetchOutcome.ok status h =>
          match promiseAll { movies := [] }
              ((pageUrlsFor url (getPageCountFromHtml h)).map (fun p =>
                match net p with
                | FetchOutcome.ok _ h2 =>
                  Except.ok (getMovieDataFromHtml h2)
                | FetchOutcome.err m => Except.error m)) order with
          | Except.error m =>
            ({ statusCode := 500,
               body := Body.errBody ("Failed to fetch data: ".toList ++ m) },
             url :: pageUrlsFor url (getPageCountFromHtml h))
          | Except.ok pages =>
            ({ statusCode := status,
               body := Body.okBody
                 ((getMovieDataFromHtml h).movies ++
                   (pages.map (fun pd => pd.movies)).flatten)
                 (getUserDataFromHtml h).name
                 (getUserDataFromHtml h).profilePicUrl },
             url :: pageUrlsFor url (getPageCountFromHtml h))

/-!
Concrete fixtures used to evaluate the handler on closed runs: a minimal
diary row carrying only a title, minimal pages, a profile URL on the allowed
origin, and three network functions (a three-page profile, a profile whose
second page fails at the transport level, and a profile whose first page is
a 404 with no pagination). -/
def sampleRow (t : Str) : DiaryRow :=
  { filmIdAttr := none, filmSlugAttr := none, titleText := t, dayHref := none,
    ratingValueAttr := none, likedIcons := 0 }

def samplePage (n : Nat) (ts : List Str) : Html :=
  { paginatePages := n, titleText := [], avatarSrc := none,
    diaryRows := ts.map sampleRow }

def sampleUrl : Str := "https://letterboxd.com/alice/films/diary/".toList

def sampleNet : Str → FetchOutcome := fun u =>
  if u = sampleUrl then
    FetchOutcome.ok 200 (samplePage 3 ["A".toList, "B".toList])
  else if u = sampleUrl ++ "page/2/".toList then
    FetchOutcome.ok 200 (samplePage 0 ["C".toList, "D".toList])
  else if u = sampleUrl ++ "page/3/".toList then
    FetchOutcome.ok 200 (samplePage 0 ["E".toList, "F".toList])
  else FetchOutcome.err "network error".toList

def sampleNetFail : Str → FetchOutcome := fun u =>
  if u = sampleUrl then FetchOutcome.ok 200 (samplePage 2 ["A".toList])
  else FetchOutcome.err "network error".toList

def sampleNet404 : Str → FetchOutcome := fun u =>
  if u = sampleUrl then FetchOutcome.ok 404 (samplePage 0 [])
  else FetchOutcome.err "network error".toList

/-- splitAtLastHyphen returns none exactly when no hyphen occurs. -/
theorem splitAtLastHyphen_eq_none {l : Str} :
    splitAtLastHyphen l = none ↔ '-' ∉ l := by
  induction l with
  | nil => simp [splitAtLastHyphen]
  | cons c cs ih =>
    unfold splitAtLastHyphen
    cases h : splitAtLastHyphen cs with
    | some p =>
      have : '-' ∈ cs := by
        by_contra hmem
        rw [ih.mpr hmem] at h
        exact Option.noConfusion h
      simp [this]
    | none =>
      by_cases hc : c = '-'
      · simp [hc]
      · simp [hc, ih.mp h, Ne.symm hc]

/-- A successful splitAtLastHyphen decomposes the input around a hyphen that
is the last one: no hyphen occurs after it. -/
theorem splitAtLastHyphen_eq_some {l pre post : Str}
    (h : splitAtLastHyphen l = some (pre, post)) :
    l = pre ++ '-' :: post ∧ '-' ∉ post := by
  induction l generalizing pre post with
  | nil => exact Option.noConfusion h
  | cons c cs ih =>
    unfold splitAtLastHyphen at h
    cases hcs : splitAtLastHyphen cs with
    | some p =>
      rw [hcs] at h
      obtain ⟨p1, p2⟩ := p
      obtain ⟨h1, h2⟩ := Prod.mk.injEq .. ▸ Option.some.injEq .. ▸ h
      obtain ⟨hdec, hmem⟩ := @ih p1 p2 (by rw [hcs])
      subst h1 h2
      exact ⟨by rw [hdec]; rfl, hmem⟩
    | none =>
      rw [hcs] at h
      by_cases hc : c = '-'
      · rw [if_pos hc] at h
        obtain ⟨h1, h2⟩ := Prod.mk.injEq .. ▸ Option.some.injEq .. ▸ h
        subst h1 h2 hc
        exact ⟨rfl, splitAtLastHyphen_eq_none.mp hcs⟩
      · rw [if_neg hc] at h
        exact Option.noConfusion h

/-- Conversely, a hyphen decomposition whose tail part is hyphen-free is the
decomposition that splitAtLastHyphen finds. -/
theorem splitAtLastHyphen_append {pre post : Str} (h : '-' ∉ post) :
    splitAtLastHyphen (pre ++ '-' :: post) = some (pre, post) := by
  induction pre with
  | nil =>
    simp [splitAtLastHyphen, splitAtLastHyphen_eq_none.mpr h]
  | cons c cs ih =>
    simp [splitAtLastHyphen, ih]

theorem exists_four {α : Type} {l : List α} (h : l.length = 4) :
    ∃ a b c d : α, l = [a, b, c, d] := by
  match l, h with
  | [a, b, c, d], _ => exact ⟨a, b, c, d, rfl⟩

/-- Characterization of the strip condition. -/
theorem strippable_iff {l : Str} :
    strippable l = true ↔
      (l ≠ [] ∧ 5 ≤ l.length) ∧
        ∃ pre post, splitAtLastHyphen l = some (pre, post) ∧
          post.length = 4 ∧ jsStringNotNaN post = true := by
  unfold strippable
  cases h : splitAtLastHyphen l with
  | none => simp [h]
  | some p =>
    obtain ⟨pre, post⟩ := p
    simp [h, and_assoc]

/-- When the strip condition fails, stripYearFromSlug returns its input. -/
theorem stripYearFromSlug_eq_self {l : Str} (h : strippable l = false) :
    stripYearFromSlug l = l := by
  unfold stripYearFromSlug
  split
  · next hcond =>
    split
    · next pre post hsp =>
      split
      · next hyp =>
        exact absurd (strippable_iff.mpr ⟨hcond, pre, post, hsp, hyp⟩)
          (by simp [h])
      · rfl
    · rfl
  · rfl

/-- When the strip condition holds, stripYearFromSlug returns the part before
the last hyphen, which is five characters shorter than the input. -/
theorem stripYearFromSlug_of_strippable {l : Str} (h : strippable l = true) :
    ∃ pre post, splitAtLastHyphen l = some (pre, post) ∧
      stripYearFromSlug l = pre ∧ l.length = pre.length + 5 := by
  obtain ⟨hcond, pre, post, hsp, hyp⟩ := strippable_iff.mp h
  refine ⟨pre, post, hsp, ?_, ?_⟩
  · unfold stripYearFromSlug
    rw [if_pos hcond, hsp]
    exact if_pos hyp
  · obtain ⟨hdec, _⟩ := splitAtLastHyphen_eq_some hsp
    rw [hdec]
    simp [hyp.1]

/-- C1 counterexample: the claim predicts that an input whose four characters
after the last hyphen are not all decimal digits is returned unchanged, but
stripYearFromSlug strips the suffix of "ab-1e34" because the source tests the
suffix with isNaN, and "1e34" coerces to a number. -/
theorem stripYearFromSlug_digit_spec_divergence :
    stripYearFromSlug "ab-1e34".toList = "ab".toList ∧
      specStripDigits "ab-1e34".toList = "ab-1e34".toList := by
  exact ⟨by decide, by decide⟩

/-- C1 (amended): stripYearFromSlug strips the trailing hyphen-plus-4-character
block exactly when the input has length at least 5, contains a hyphen, the
substring after the last hyphen is exactly 4 characters long, and that
substring is recognized as numeric by JavaScript Number coercion (rather than
consisting of decimal digits only); every other input is returned unchanged. -/
theorem stripYearFromSlug_eq_specStripJsNumeric (l : Str) :
    stripYearFromSlug l = specStripJsNumeric l := by
  by_cases hlen : 5 ≤ l.length
  · cases hsp : splitAtLastHyphen l with
    | none =>
      have hmem : '-' ∉ l := splitAtLastHyphen_eq_none.mp hsp
      have h1 : stripYearFromSlug l = l := by
        unfold stripYearFromSlug
        split
        · rw [hsp]
        · rfl
      rw [h1]
      unfold specStripJsNumeric
      split
      · next a b c d heq =>
        exact absurd (List.drop_subset _ l (heq ▸ List.mem_cons_self '-' _)) hmem
      · rfl
    | some p =>
      obtain ⟨pre, post⟩ := p
      obtain ⟨hdec, hpost⟩ := splitAtLastHyphen_eq_some hsp
      have hne : l ≠ [] := by
        intro he
        rw [he] at hlen
        simp at hlen
      by_cases hcond : post.length = 4 ∧ jsStringNotNaN post = true
      · have hstrippable : strippable l = true :=
          strippable_iff.mpr ⟨⟨hne, hlen⟩, pre, post, hsp, hcond⟩
        obtain ⟨pre2, post2, hsp2, hstrip, hl5⟩ :=
          stripYearFromSlug_of_strippable hstrippable
        rw [hsp] at hsp2
        simp only [Option.some.injEq, Prod.mk.injEq] at hsp2
        obtain ⟨hpre2, hpost2⟩ := hsp2
        subst hpre2 hpost2
        obtain ⟨a, b, c, d, habcd⟩ := exists_four hcond.1
        have hk : l.length - 5 = pre.length := by omega
        have hdrop : l.drop (l.length - 5) = '-' :: post := by
          rw [hk, hdec, List.drop_left]
        have htake : l.take (l.length - 5) = pre := by
          rw [hk, hdec, List.take_left]
        rw [hstrip]
        unfold specStripJsNumeric
        rw [hdrop, habcd]
        have hallne : ([a, b, c, d].all (fun x => x ≠ '-')) = true := by
          rw [habcd] at hpost
          simp only [List.all_eq_true, decide_eq_true_iff]
          intro x hx hx2
          exact hpost (hx2 ▸ hx)
        show pre = if ([a, b, c, d].all fun x => decide (x ≠ '-')) = true ∧
            jsStringNotNaN [a, b, c, d] = true then l.take (l.length - 5) else l
        rw [if_pos ⟨hallne, habcd ▸ hcond.2⟩, htake]
      · have hstrippable : strippable l = false := by
          cases hb : strippable l with
          | false => rfl
          | true =>
            obtain ⟨_, pre2, post2, hsp2, hcond2⟩ := strippable_iff.mp hb
            rw [hsp] at hsp2
            simp only [Option.some.injEq, Prod.mk.injEq] at hsp2
            obtain ⟨hpre2, hpost2⟩ := hsp2
            subst hpre2 hpost2
            exact absurd hcond2 hcond
        rw [stripYearFromSlug_eq_self hstrippable]
        unfold specStripJsNumeric
        split
        · next a b c d heq =>
          by_cases hc2 : ([a, b, c, d].all (fun x => x ≠ '-')) = true ∧
              jsStringNotNaN [a, b, c, d] = true
          · exfalso
            have hldec : l = l.take (l.length - 5) ++ '-' :: [a, b, c, d] := by
              rw [← heq, List.take_append_drop]
            have hnot : '-' ∉ ([a, b, c, d] : Str) := by
              intro hm
              have := (List.all_eq_true.mp hc2.1) '-' hm
              simp at this
            have hsp3 : splitAtLastHyphen l =
                some (l.take (l.length - 5), [a, b, c, d]) := by
              conv_lhs => rw [hldec]
              exact splitAtLastHyphen_append hnot
            rw [hsp] at hsp3
            simp only [Option.some.injEq, Prod.mk.injEq] at hsp3
            exact hcond ⟨by rw [hsp3.2]; simp, by rw [hsp3.2]; exact hc2.2⟩
          · rw [if_neg hc2]
        · rfl
  · have h1 : stripYearFromSlug l = l := by
      unfold stripYearFromSlug
      rw [if_neg (by intro hc; exact hlen hc.2)]
    rw [h1]
    unfold specStripJsNumeric
    split
    · next a b c d heq =>
      exfalso
      have := congrArg List.length heq
      rw [List.length_drop] at this
      simp at this
      omega
    · rfl

/-- C2 counterexample: stripYearFromSlug is not idempotent; on
"foo-1234-5678" one application yields "foo-1234" and a second application
strips again, yielding "foo". -/
theorem stripYearFromSlug_not_idempotent :
    stripYearFromSlug (stripYearFromSlug "foo-1234-5678".toList) ≠
      stripYearFromSlug "foo-1234-5678".toList := by decide

/-- C2 (amended): applying stripYearFromSlug twice yields the same result as
applying it once exactly when the once-stripped result does not itself end in
a strippable hyphen-plus-4-character numeric block; in general the function
is not idempotent. -/
theorem stripYearFromSlug_twice_eq_iff (s : Str) :
    stripYearFromSlug (stripYearFromSlug s) = stripYearFromSlug s ↔
      strippable (stripYearFromSlug s) = false := by
  constructor
  · intro h
    cases hb : strippable (stripYearFromSlug s) with
    | false => rfl
    | true =>
      exfalso
      obtain ⟨pre, post, hsp, hstrip, hl5⟩ := stripYearFromSlug_of_strippable hb
      rw [h] at hstrip
      rw [← hstrip] at hl5
      omega
  · exact fun h => stripYearFromSlug_eq_self h

/-- Every month has at least 28 days. -/
theorem daysInMonth_ge (y m : Nat) : 28 ≤ daysInMonth y m := by
  unfold daysInMonth
  split_ifs <;> omega

/-- Every month has at most 31 days. -/
theorem daysInMonth_le (y m : Nat) : daysInMonth y m ≤ 31 := by
  unfold daysInMonth
  split_ifs <;> omega

/-- Rolling over a syntactically in-range day always lands on a valid
calendar date. -/
theorem rollOverDate_valid {y m d : Nat} (h1 : 1 ≤ m) (h2 : m ≤ 12)
    (h3 : 1 ≤ d) (h4 : d ≤ 31) :
    isValidCalendarDate (rollOverDate y m d) = true := by
  unfold rollOverDate
  split_ifs with hd hm
  · simp [isValidCalendarDate, h1, h2, h3, hd]
  · exfalso
    subst hm
    have h31 : daysInMonth y 12 = 31 := by unfold daysInMonth; norm_num
    omega
  · have hle := daysInMonth_le y m
    have hge := daysInMonth_ge y m
    have hge2 := daysInMonth_ge y (m + 1)
    simp only [isValidCalendarDate, Bool.and_eq_true, decide_eq_true_iff]
    omega

/-- Transfer of rollOverDate validity through an equation. -/
theorem rollOverDate_eq_valid {y0 m0 d0 y m d : Nat} (h1 : 1 ≤ m0)
    (h2 : m0 ≤ 12) (h3 : 1 ≤ d0) (h4 : d0 ≤ 31)
    (h : rollOverDate y0 m0 d0 = JsDate.valid y m d) :
    isValidCalendarDate (JsDate.valid y m d) = true := by
  have hv := @rollOverDate_valid y0 m0 d0 h1 h2 h3 h4
  rw [h] at hv
  exact hv

/-- A string parsed by new Date to a non-invalid date yields a valid
calendar date. -/
theorem jsNewDate_valid {s : Str} {y m d : Nat}
    (h : jsNewDate s = JsDate.valid y m d) :
    isValidCalendarDate (JsDate.valid y m d) = true := by
  unfold jsNewDate at h
  split at h
  · split at h
    · split at h
      · next hb =>
        exact rollOverDate_eq_valid hb.1 hb.2.1 hb.2.2.1 hb.2.2.2 h
      · exact JsDate.noConfusion h
    · exact JsDate.noConfusion h
  · exact JsDate.noConfusion h

/-- The watch-date extraction either yields no date or a date obtained by
parsing some built string with new Date. -/
theorem extractWatchDate_shape (href : Option Str) :
    extractWatchDate href = none ∨
      ∃ s, extractWatchDate href = some (jsNewDate s) := by
  cases href with
  | none => left; rfl
  | some u =>
    by_cases h0 : u ≠ []
    · cases hf : (datePartsOf u).findIdx? (fun p => p = ['f', 'o', 'r']) with
      | none => left; simp [extractWatchDate, h0, hf]
      | some k =>
        by_cases hl : k + 3 < (datePartsOf u).length
        · have hred : extractWatchDate (some u) =
              some (jsNewDate (((datePartsOf u).getD (k + 1) []) ++
                '-' :: (((datePartsOf u).getD (k + 2) []) ++
                  '-' :: ((datePartsOf u).getD (k + 3) [])))) := by
            simp [extractWatchDate, h0, hf, hl]
          right
          exact ⟨_, hred⟩
        · left
          simp [extractWatchDate, h0, hf, hl]
    · left
      simp [extractWatchDate, h0]

/-- A decimal digit is not a whitespace character. -/
theorem isDigit_not_ws {c : Char} (h : c.isDigit = true) : isJsWs c = false := by
  cases hw : isJsWs c with
  | false => rfl
  | true =>
    exfalso
    revert h
    simp only [isJsWs, Bool.or_eq_true, decide_eq_true_iff] at hw
    rcases hw with ((((((((h' | h') | h') | h') | h') | h') | h') | h') | h') | h'
    all_goals (subst h'; decide)

/-- A decimal digit is neither a plus nor a minus sign. -/
theorem digit_ne_sign {c : Char} (h : c.isDigit = true) : c ≠ '+' ∧ c ≠ '-' := by
  constructor <;> (rintro rfl; exact absurd h (by decide))

/-- takeWhile keeps a list all of whose elements satisfy the predicate. -/
theorem takeWhile_all_eq {p : Char → Bool} {l : Str} (h : l.all p = true) :
    l.takeWhile p = l := by
  induction l with
  | nil => rfl
  | cons c cs ih =>
    simp only [List.all_cons, Bool.and_eq_true] at h
    simp [List.takeWhile_cons, h.1, ih h.2]

/-- C3 counterexample: a date link encoding the invalid calendar combination
2023-02-31 does not yield an absent loggedDate: new Date rolls the
out-of-range day over, so the parsed entry carries the present valid date
2023-03-03. -/
theorem watchDate_invalid_combo_present :
    extractWatchDate (some "/u/film/x/for/2023/02/31/".toList) =
        some (JsDate.valid 2023 3 3) ∧
      dateJson (extractWatchDate (some "/u/film/x/for/2023/02/31/".toList)) ≠
        none := by
  exact ⟨by decide, by decide⟩

/-- C3 (amended): the watch-date extraction totally evaluates, never erroring:
a missing date link yields an absent date; an address whose segments lack the
"for" marker, or with fewer than 3 segments after the marker, yields an
absent date; and whenever the serialized loggedDate is present it is a valid
calendar date — invalid year/month/day combinations are either rejected to an
invalid date, serialized as absent (month or day outside the syntactic
ranges), or rolled over arithmetically to a nearby valid calendar date (day
beyond the month length, e.g. 2023-02-31 gives 2023-03-03). -/
theorem watchDate_absent_or_valid (href : Str) :
    extractWatchDate none = none ∧
    ((datePartsOf href).findIdx? (fun p => p = "for".toList) = none →
      extractWatchDate (some href) = none) ∧
    (∀ k, (datePartsOf href).findIdx? (fun p => p = "for".toList) = some k →
      (datePartsOf href).length ≤ k + 3 → extractWatchDate (some href) = none) ∧
    (∀ y m d, dateJson (extractWatchDate (some href)) = some (y, m, d) →
      isValidCalendarDate (JsDate.valid y m d) = true) := by
  refine ⟨rfl, ?_, ?_, ?_⟩
  · intro hf
    have hf2 : (datePartsOf href).findIdx? (fun p => p = ['f', 'o', 'r']) =
        none := hf
    by_cases h0 : href ≠ []
    · simp [extractWatchDate, h0, hf2]
    · simp [extractWatchDate, h0]
  · intro k hf hlen
    have hf2 : (datePartsOf href).findIdx? (fun p => p = ['f', 'o', 'r']) =
        some k := hf
    have hnl : ¬(k + 3 < (datePartsOf href).length) := by omega
    by_cases h0 : href ≠ []
    · simp [extractWatchDate, h0, hf2, hnl]
    · simp [extractWatchDate, h0]
  · intro y m d hj
    rcases extractWatchDate_shape (some href) with hn | ⟨s, hs⟩
    · rw [hn] at hj
      exact absurd hj (by simp [dateJson])
    · rw [hs] at hj
      cases hd : jsNewDate s with
      | invalid =>
        rw [hd] at hj
        exact absurd hj (by simp [dateJson])
      | valid y2 m2 d2 =>
        rw [hd] at hj
        simp only [dateJson, Option.some.injEq, Prod.mk.injEq] at hj
        obtain ⟨h1, h2, h3⟩ := hj
        subst h1 h2 h3
        exact jsNewDate_valid hd

/-- Witness for the amended C3 theorem at concrete inputs: an address without
the "for" marker yields an absent date, and the rolled-over date 2023-03-03
produced from the 2023-02-31 address is a valid calendar date. -/
theorem watchDate_absent_or_valid_witness :
    extractWatchDate (some "/film/x/2023/07/15/".toList) = none ∧
      isValidCalendarDate (JsDate.valid 2023 3 3) = true :=
  ⟨(watchDate_absent_or_valid "/film/x/2023/07/15/".toList).2.1 (by decide),
   (watchDate_absent_or_valid "/u/film/x/for/2023/02/31/".toList).2.2.2
     2023 3 3 (by decide)⟩

/-- C4: the rating extraction maps a digit-string value attribute to its
integer value, a missing attribute to an absent rating, and a value that
parseInt cannot parse to a rating that serializes as absent (parseInt gives
NaN, which JSON.stringify turns into null), never to a failure. -/
theorem rating_int_or_absent :
    (∀ ds : Str, ds ≠ [] → ds.all Char.isDigit = true →
      ratingJson (extractRating (some ds)) = some (digitsToNat ds : Int)) ∧
    extractRating none = none ∧
    (∀ v : Str, parseInt10 v = JsNum.nan →
      ratingJson (extractRating (some v)) = none) := by
  refine ⟨?_, rfl, ?_⟩
  · intro ds hne hdig
    obtain ⟨c, cs, rfl⟩ : ∃ c cs, ds = c :: cs := by
      cases ds with
      | nil => exact absurd rfl hne
      | cons c cs => exact ⟨c, cs, rfl⟩
    have hc : c.isDigit = true := by
      simp only [List.all_cons, Bool.and_eq_true] at hdig
      exact hdig.1
    have hws := isDigit_not_ws hc
    obtain ⟨hp, hm⟩ := digit_ne_sign hc
    simp [extractRating, parseInt10, List.dropWhile_cons, hws, hp, hm,
      takeWhile_all_eq hdig, ratingJson]
  · intro v hv
    simp [extractRating, ratingJson, hv]

/-- Witness for the C4 theorem at concrete inputs: attribute value "8" gives
the integer rating 8, a missing attribute gives an absent rating, and the
non-numeric value "abc" gives a rating that serializes as absent. -/
theorem rating_int_or_absent_witness :
    ratingJson (extractRating (some "8".toList)) = some 8 ∧
      extractRating none = none ∧
      ratingJson (extractRating (some "abc".toList)) = none :=
  ⟨by rw [rating_int_or_absent.1 "8".toList (by decide) (by decide)]; decide,
   rating_int_or_absent.2.1,
   rating_int_or_absent.2.2 "abc".toList (by decide)⟩

/-- C5 counterexample: an entry whose data-film-id attribute is a single
space has mediaId present and non-null (the empty string, after trimming)
and a present non-null slug, yet its imageUrl is absent, because the source
guards the construction by JavaScript truthiness, which rejects the empty
string.  So presence of imageUrl is not equivalent to both fields being
present and non-null. -/
theorem posterUrl_present_nonnull_divergence :
    (rowToMovie { filmIdAttr := some [' '], filmSlugAttr := some "slug".toList,
                  titleText := [], dayHref := none, ratingValueAttr := none,
                  likedIcons := 0 }).filmId = some [] ∧
    extractFilmSlug (some "slug".toList) = some "slug".toList ∧
    (rowToMovie { filmIdAttr := some [' '], filmSlugAttr := some "slug".toList,
                  titleText := [], dayHref := none, ratingValueAttr := none,
                  likedIcons := 0 }).posterUrl = none := by
  exact ⟨by decide, by decide, by decide⟩

/-- C5 (amended): an entry's posterUrl is present exactly when both the
extracted film id and the extracted slug are present, non-null and nonempty;
and in that case it is exactly the string made of the fixed prefix, the
characters of the film id joined by slashes, a slash, and the
id-hyphen-slug-crop suffix. -/
theorem posterUrl_iff_nonempty (r : DiaryRow) (fid slug : Option Str) :
    ((rowToMovie r).posterUrl =
      buildPosterUrl (extractFilmId r.filmIdAttr)
        (extractFilmSlug r.filmSlugAttr)) ∧
    (buildPosterUrl fid slug ≠ none ↔
      ∃ s t, fid = some s ∧ s ≠ [] ∧ slug = some t ∧ t ≠ []) ∧
    (∀ s t, fid = some s → s ≠ [] → slug = some t → t ≠ [] →
      buildPosterUrl fid slug =
        some ("https://a.ltrbxd.com/resized/film-poster/".toList ++
          (List.intercalate ['/'] (s.map (fun c => [c])) ++
            '/' :: (s ++ '-' :: (t ++ "-0-300-0-450-crop.jpg".toList))))) := by
  refine ⟨rfl, ⟨?_, ?_⟩, ?_⟩
  · intro hne
    cases fid with
    | none => simp [buildPosterUrl] at hne
    | some s =>
      cases slug with
      | none => simp [buildPosterUrl] at hne
      | some t =>
        by_cases hc : s ≠ [] ∧ t ≠ []
        · exact ⟨s, t, rfl, hc.1, rfl, hc.2⟩
        · simp [buildPosterUrl, hc] at hne
  · rintro ⟨s, t, rfl, hs, rfl, ht⟩
    simp [buildPosterUrl, hs, ht]
  · rintro s t rfl hs rfl ht
    simp [buildPosterUrl, hs, ht]

/-- Witness for the amended C5 theorem at a concrete entry: film id "123"
and slug "dune" give exactly the expected poster address. -/
theorem posterUrl_iff_nonempty_witness :
    buildPosterUrl (some "123".toList) (some "dune".toList) =
      some ("https://a.ltrbxd.com/resized/film-poster/".toList ++
        (List.intercalate ['/'] ("123".toList.map (fun c => [c])) ++
          '/' :: ("123".toList ++ '-' ::
            ("dune".toList ++ "-0-300-0-450-crop.jpg".toList)))) :=
  (posterUrl_iff_nonempty
      { filmIdAttr := none, filmSlugAttr := none, titleText := [],
        dayHref := none, ratingValueAttr := none, likedIcons := 0 }
      (some "123".toList) (some "dune".toList)).2.2
    "123".toList "dune".toList rfl (by decide) rfl (by decide)

/-- C9: the three page-parsing functions are total functions of the parsed
page (they cannot throw), and every individual extraction defaults rather
than aborting: a page with no pagination items has page count 0, a missing
avatar gives an absent picture, no rows give an empty entry list, and on
each row a missing film id attribute gives an absent id and an absent
poster, a missing date link gives an absent date, a missing rating attribute
gives an absent rating, no liked icon gives false, and an empty title text
gives an empty title. -/
theorem parser_defaults :
    (∀ h : Html, h.paginatePages = 0 → getPageCountFromHtml h = 0) ∧
    (∀ h : Html, h.avatarSrc = none →
      (getUserDataFromHtml h).profilePicUrl = none) ∧
    (∀ h : Html, h.diaryRows = [] → (getMovieDataFromHtml h).movies = []) ∧
    (∀ r : DiaryRow, r.filmIdAttr = none →
      (rowToMovie r).filmId = none ∧ (rowToMovie r).posterUrl = none) ∧
    (∀ r : DiaryRow, r.dayHref = none → (rowToMovie r).watchDate = none) ∧
    (∀ r : DiaryRow, r.ratingValueAttr = none →
      (rowToMovie r).rating = none) ∧
    (∀ r : DiaryRow, r.likedIcons = 0 → (rowToMovie r).isLiked = false) ∧
    (∀ r : DiaryRow, r.titleText = [] → (rowToMovie r).title = []) := by
  refine ⟨?_, ?_, ?_, ?_, ?_, ?_, ?_, ?_⟩
  · intro h hh
    simp [getPageCountFromHtml, hh]
  · intro h hh
    simp [getUserDataFromHtml, hh]
  · intro h hh
    simp [getMovieDataFromHtml, hh]
  · intro r hh
    exact ⟨by simp [rowToMovie, extractFilmId, hh],
      by simp [rowToMovie, extractFilmId, hh, buildPosterUrl]⟩
  · intro r hh
    simp [rowToMovie, extractWatchDate, hh]
  · intro r hh
    simp [rowToMovie, extractRating, hh]
  · intro r hh
    simp [rowToMovie, hh]
  · intro r hh
    simp [rowToMovie, hh, jsTrim]

/-- Witness for the C9 theorem at the fully empty page and row: every field
takes its documented default. -/
theorem parser_defaults_witness :
    getPageCountFromHtml
      { paginatePages := 0, titleText := [], avatarSrc := none,
        diaryRows := [] } = 0 ∧
    (getUserDataFromHtml
      { paginatePages := 0, titleText := [], avatarSrc := none,
        diaryRows := [] }).profilePicUrl = none ∧
    (getMovieDataFromHtml
      { paginatePages := 0, titleText := [], avatarSrc := none,
        diaryRows := [] }).movies = [] ∧
    (rowToMovie { filmIdAttr := none, filmSlugAttr := none, titleText := [],
                  dayHref := none, ratingValueAttr := none,
                  likedIcons := 0 }).filmId = none ∧
    (rowToMovie { filmIdAttr := none, filmSlugAttr := none, titleText := [],
                  dayHref := none, ratingValueAttr := none,
                  likedIcons := 0 }).rating = none :=
  ⟨parser_defaults.1 _ rfl,
   parser_defaults.2.1 _ rfl,
   parser_defaults.2.2.1 _ rfl,
   (parser_defaults.2.2.2.1 _ rfl).1,
   parser_defaults.2.2.2.2.2.1 _ rfl⟩

/-- Looking up a key in a keyed map of a function finds the function value
exactly when the key occurs. -/
theorem lookupFst_map_eq {α : Type} (f : Nat → α) (order : List Nat)
    (i : Nat) :
    lookupFst i (order.map (fun j => (j, f j))) =
      if i ∈ order then some (f i) else none := by
  induction order with
  | nil => simp [lookupFst]
  | cons j rest ih =>
    by_cases hj : j = i
    · subst hj
      simp [lookupFst]
    · have hmem : i ∈ j :: rest ↔ i ∈ rest := by
        constructor
        · intro h
          rcases List.mem_cons.mp h with h1 | h1
          · exact absurd h1.symm hj
          · exact h1
        · intro h
          exact List.mem_cons_of_mem j h
      simp [lookupFst, hj, ih, hmem]

/-- Reading a list back through positional getD over its index range
reproduces the list. -/
theorem range_map_getD {α β : Type} (G : α → β) (l : List α) (d : α) :
    (List.range l.length).map (fun i => G (l.getD i d)) = l.map G := by
  induction l with
  | nil => simp
  | cons a as ih =>
    rw [List.length_cons, List.range_succ_eq_map, List.map_cons,
      List.map_cons, List.map_map]
    congr 1

/-- When no rejection is found, Promise.all fulfills with the job values in
issue order, for every completion order that covers all the jobs. -/
theorem promiseAll_allOk {α : Type} (dflt : α) (jobs : List (Except Str α))
    (order : List Nat) (hperm : order.Perm (List.range jobs.length))
    (hok : firstErrInOrder jobs order = none) :
    promiseAll dflt jobs order = Except.ok (jobs.map (exValD dflt)) := by
  have hmain : assembleByIndex dflt jobs.length (settledPairs dflt jobs order) =
      jobs.map (exValD dflt) := by
    unfold assembleByIndex settledPairs
    calc (List.range jobs.length).map (fun i => (lookupFst i (order.map
          (fun j => (j, exValD dflt (jobs.getD j (Except.ok dflt)))))).getD dflt)
        = (List.range jobs.length).map
            (fun i => exValD dflt (jobs.getD i (Except.ok dflt))) := by
          apply List.map_congr_left
          intro i hi
          rw [lookupFst_map_eq]
          rw [if_pos (hperm.mem_iff.mpr hi)]
          rfl
      _ = jobs.map (exValD dflt) := range_map_getD _ jobs _
  unfold promiseAll
  rw [hok, hmain]

/-- A completion order all of whose jobs fulfilled finds no rejection. -/
theorem firstErrInOrder_none {α : Type} (jobs : List (Except Str α))
    (order : List Nat)
    (hall : ∀ i ∈ order, ∀ m, jobs[i]? ≠ some (Except.error m)) :
    firstErrInOrder jobs order = none := by
  induction order with
  | nil => rfl
  | cons j rest ih =>
    have hj := hall j (List.mem_cons_self j rest)
    have htail := ih (fun i hi m => hall i (List.mem_cons_of_mem j hi) m)
    cases hjj : jobs[j]? with
    | none => simpa [firstErrInOrder, hjj] using htail
    | some e =>
      cases e with
      | error m => exact absurd hjj (hj m)
      | ok v => simpa [firstErrInOrder, hjj] using htail

/-- A rejected job that the completion order reaches rejects the whole
combinator with some rejection message. -/
theorem firstErrInOrder_some {α : Type} (jobs : List (Except Str α))
    (order : List Nat) (i : Nat) (m : Str) (hi : i ∈ order)
    (hj : jobs[i]? = some (Except.error m)) :
    ∃ m2, firstErrInOrder jobs order = some m2 := by
  induction order with
  | nil => cases hi
  | cons j rest ih =>
    cases hjj : jobs[j]? with
    | none =>
      rcases List.mem_cons.mp hi with h1 | h1
      · subst h1
        rw [hj] at hjj
        cases hjj
      · simpa [firstErrInOrder, hjj] using ih h1
    | some e =>
      cases e with
      | error m2 => exact ⟨m2, by simp [firstErrInOrder, hjj]⟩
      | ok v =>
        rcases List.mem_cons.mp hi with h1 | h1
        · subst h1
          rw [hj] at hjj
          cases hjj
        · simpa [firstErrInOrder, hjj] using ih h1

/-- A run whose first page fulfills and whose every planned page fetch
fulfills produces the first-page status and the merged movie list in page
order, whatever the completion order of the batch; the fetch log is the
first page followed by the planned pages in page order. -/
theorem handler_success_run (url : Str) (net : Str → FetchOutcome)
    (order : List Nat) (s : Nat) (h : Html)
    (horig : "https://letterboxd.com/".toList <+: url)
    (h1 : net url = FetchOutcome.ok s h)
    (hperm : order.Perm
      (List.range (pageUrlsFor url (getPageCountFromHtml h)).length))
    (hall : ∀ p ∈ pageUrlsFor url (getPageCountFromHtml h),
      ∃ s2 h2, net p = FetchOutcome.ok s2 h2) :
    handler (some (some url)) net order =
      ({ statusCode := s,
         body := Body.okBody
           ((getMovieDataFromHtml h).movies ++
             ((pageUrlsFor url (getPageCountFromHtml h)).map
               (pageMovies net)).flatten)
           (getUserDataFromHtml h).name
           (getUserDataFromHtml h).profilePicUrl },
       url :: pageUrlsFor url (getPageCountFromHtml h)) := by
  have hne0 : ¬(url = []) := by
    intro he
    have hlen := horig.length_le
    rw [he] at hlen
    simp at hlen
  have hjobs : ∀ i ∈ order, ∀ m,
      ((pageUrlsFor url (getPageCountFromHtml h)).map (fun p =>
        match net p with
        | FetchOutcome.ok _ h2 => Except.ok (getMovieDataFromHtml h2)
        | FetchOutcome.err m2 => Except.error m2))[i]? ≠
        some (Except.error m) := by
    intro i hi m hcontra
    have hilen : i < (pageUrlsFor url (getPageCountFromHtml h)).length := by
      have hmem := hperm.mem_iff.mp hi
      rw [List.mem_range] at hmem
      exact hmem
    obtain ⟨s2, h2, hok2⟩ :=
      hall ((pageUrlsFor url (getPageCountFromHtml h))[i])
        (List.getElem_mem hilen)
    simp [List.getElem?_map, List.getElem?_eq_getElem hilen, hok2] at hcontra
  have hperm2 : order.Perm (List.range
      ((pageUrlsFor url (getPageCountFromHtml h)).map (fun p =>
        match net p with
        | FetchOutcome.ok _ h2 => Except.ok (getMovieDataFromHtml h2)
        | FetchOutcome.err m2 => Except.error m2)).length) := by
    rw [List.length_map]
    exact hperm
  have hfe := firstErrInOrder_none _ order hjobs
  have hpa := promiseAll_allOk ({ movies := [] }) _ order hperm2 hfe
  have hmap : (((pageUrlsFor url (getPageCountFromHtml h)).map (fun p =>
      match net p with
      | FetchOutcome.ok _ h2 => Except.ok (getMovieDataFromHtml h2)
      | FetchOutcome.err m2 => Except.error m2)).map
        (exValD { movies := [] })).map (fun pd => pd.movies) =
      (pageUrlsFor url (getPageCountFromHtml h)).map (pageMovies net) := by
    rw [List.map_map, List.map_map]
    apply List.map_congr_left
    intro p hp
    cases hnp : net p with
    | ok s2 h2 => simp [Function.comp_def, pageMovies, hnp, exValD]
    | err m => simp [Function.comp_def, pageMovies, hnp, exValD]
  simp only [handler, if_neg hne0, if_neg (not_not_intro horig), h1, hpa,
    hmap]

/-- A URL with the allowed-origin prefix is nonempty. -/
theorem origin_url_ne_nil {url : Str}
    (horig : "https://letterboxd.com/".toList <+: url) : ¬(url = []) := by
  intro he
  have hlen := horig.length_le
  rw [he] at hlen
  simp at hlen

/-- C6: in every successful multi-page run, the body carries the first-page
entries followed by the entries of the subsequent pages in page-number
order, each page's internal order preserved, for every completion order of
the concurrent batch. -/
theorem merge_in_page_order (url : Str) (net : Str → FetchOutcome)
    (order : List Nat) (s : Nat) (h : Html)
    (horig : "https://letterboxd.com/".toList <+: url)
    (h1 : net url = FetchOutcome.ok s h)
    (hperm : order.Perm
      (List.range (pageUrlsFor url (getPageCountFromHtml h)).length))
    (hall : ∀ p ∈ pageUrlsFor url (getPageCountFromHtml h),
      ∃ s2 h2, net p = FetchOutcome.ok s2 h2) :
    (handler (some (some url)) net order).1.body =
      Body.okBody
        ((getMovieDataFromHtml h).movies ++
          ((pageUrlsFor url (getPageCountFromHtml h)).map
            (pageMovies net)).flatten)
        (getUserDataFromHtml h).name
        (getUserDataFromHtml h).profilePicUrl := by
  rw [handler_success_run url net order s h horig h1 hperm hall]

/-- Witness for the C6 theorem: page 1 holds entries A and B, page 2 holds
C and D, page 3 holds E and F, and page 3 settles before page 2 (completion
order [1, 0]); the merged body is still [A, B, C, D, E, F]. -/
theorem merge_in_page_order_witness :
    (handler (some (some sampleUrl)) sampleNet [1, 0]).1.body =
      Body.okBody
        (["A".toList, "B".toList, "C".toList, "D".toList, "E".toList,
          "F".toList].map (fun t => rowToMovie (sampleRow t))) [] none := by
  have hplan : pageUrlsFor sampleUrl
      (getPageCountFromHtml (samplePage 3 ["A".toList, "B".toList])) =
      [sampleUrl ++ "page/2/".toList, sampleUrl ++ "page/3/".toList] := by
    decide
  have hmain := merge_in_page_order sampleUrl sampleNet [1, 0] 200
    (samplePage 3 ["A".toList, "B".toList]) (by decide) (by decide)
    (List.isPerm_iff.mp (by decide))
    (by
      intro p hp
      rw [hplan] at hp
      simp only [List.mem_cons, List.not_mem_nil, or_false] at hp
      rcases hp with rfl | rfl
      · exact ⟨200, samplePage 0 ["C".toList, "D".toList], by decide⟩
      · exact ⟨200, samplePage 0 ["E".toList, "F".toList], by decide⟩)
  exact hmain.trans (by decide)

/-- C7: a url parameter that does not start with the allowed origin string
is rejected with a 400 error response before any fetch is issued (the fetch
log of the run is empty). -/
theorem origin_reject_no_fetch (url : Str) (net : Str → FetchOutcome)
    (order : List Nat)
    (h : ¬ ("https://letterboxd.com/".toList <+: url)) :
    (handler (some (some url)) net order).1.statusCode = 400 ∧
    (handler (some (some url)) net order).2 = [] := by
  by_cases h0 : url = []
  · subst h0
    exact ⟨rfl, rfl⟩
  · have hres : handler (some (some url)) net order =
        ({ statusCode := 400, body := Body.errBody "Invalid URL".toList },
         []) := by
      simp only [handler, if_neg h0, if_pos h]
    rw [hres]
    exact ⟨rfl, rfl⟩

/-- Witness for the C7 theorem at the address from the specification:
"https://example.com/evil" is answered 400 with no fetch issued. -/
theorem origin_reject_no_fetch_witness :
    (handler (some (some "https://example.com/evil".toList))
        (fun _ => FetchOutcome.err []) []).1.statusCode = 400 ∧
    (handler (some (some "https://example.com/evil".toList))
        (fun _ => FetchOutcome.err []) []).2 = [] :=
  origin_reject_no_fetch "https://example.com/evil".toList
    (fun _ => FetchOutcome.err []) [] (by decide)

/-- C8: a transport failure on page 1 gives one aggregate 500 failure; a
transport failure on any planned subsequent page gives one aggregate 500
failure (the body is an error object, never a partial entry list); and when
every fetch fulfills the body is the complete merged entry list of all
pages, so the result either contains every page's entries or is a
failure. -/
theorem transport_failure_aggregate (url : Str) (net : Str → FetchOutcome)
    (order : List Nat)
    (horig : "https://letterboxd.com/".toList <+: url) :
    (∀ m, net url = FetchOutcome.err m →
      (handler (some (some url)) net order).1.statusCode = 500 ∧
      ∃ m2, (handler (some (some url)) net order).1.body =
        Body.errBody m2) ∧
    (∀ s h, net url = FetchOutcome.ok s h →
      order.Perm
        (List.range (pageUrlsFor url (getPageCountFromHtml h)).length) →
      (∃ p ∈ pageUrlsFor url (getPageCountFromHtml h),
        ∃ m, net p = FetchOutcome.err m) →
      (handler (some (some url)) net order).1.statusCode = 500 ∧
      ∃ m2, (handler (some (some url)) net order).1.body =
        Body.errBody m2) ∧
    (∀ s h, net url = FetchOutcome.ok s h →
      order.Perm
        (List.range (pageUrlsFor url (getPageCountFromHtml h)).length) →
      (∀ p ∈ pageUrlsFor url (getPageCountFromHtml h),
        ∃ s2 h2, net p = FetchOutcome.ok s2 h2) →
      (handler (some (some url)) net order).1.body =
        Body.okBody
          ((getMovieDataFromHtml h).movies ++
            ((pageUrlsFor url (getPageCountFromHtml h)).map
              (pageMovies net)).flatten)
          (getUserDataFromHtml h).name
          (getUserDataFromHtml h).profilePicUrl) := by
  have hne0 := origin_url_ne_nil horig
  refine ⟨?_, ?_, ?_⟩
  · intro m hm
    have hres : handler (some (some url)) net order =
        ({ statusCode := 500,
           body := Body.errBody ("Failed to fetch data: ".toList ++ m) },
         [url]) := by
      simp only [handler, if_neg hne0, if_neg (not_not_intro horig), hm]
    rw [hres]
    exact ⟨rfl, _, rfl⟩
  · rintro s h hok hperm ⟨p, hp, m, hpm⟩
    obtain ⟨i, hilen, hip⟩ := List.getElem_of_mem hp
    have hjob : ((pageUrlsFor url (getPageCountFromHtml h)).map (fun p2 =>
        match net p2 with
        | FetchOutcome.ok _ h2 => Except.ok (getMovieDataFromHtml h2)
        | FetchOutcome.err m2 => Except.error m2))[i]? =
        some (Except.error m) := by
      rw [List.getElem?_map, List.getElem?_eq_getElem hilen]
      simp [hip, hpm]
    have hiord : i ∈ order := by
      apply hperm.mem_iff.mpr
      rw [List.mem_range]
      exact hilen
    obtain ⟨m2, hfe⟩ := firstErrInOrder_some _ order i m hiord hjob
    have hpaerr : promiseAll ({ movies := [] })
        ((pageUrlsFor url (getPageCountFromHtml h)).map (fun p2 =>
          match net p2 with
          | FetchOutcome.ok _ h2 => Except.ok (getMovieDataFromHtml h2)
          | FetchOutcome.err m2 => Except.error m2)) order =
        Except.error m2 := by
      unfold promiseAll
      rw [hfe]
    have hres : handler (some (some url)) net order =
        ({ statusCode := 500,
           body := Body.errBody ("Failed to fetch data: ".toList ++ m2) },
         url :: pageUrlsFor url (getPageCountFromHtml h)) := by
      simp only [handler, if_neg hne0, if_neg (not_not_intro horig), hok,
        hpaerr]
    rw [hres]
    exact ⟨rfl, _, rfl⟩
  · intro s h hok hperm hall
    rw [handler_success_run url net order s h horig hok hperm hall]

/-- Witness for the C8 theorem: a run whose second page fails at the
transport level is answered with a single 500 error response. -/
theorem transport_failure_aggregate_witness :
    (handler (some (some sampleUrl)) sampleNetFail [0]).1.statusCode = 500 ∧
    ∃ m2, (handler (some (some sampleUrl)) sampleNetFail [0]).1.body =
      Body.errBody m2 :=
  (transport_failure_aggregate sampleUrl sampleNetFail [0] (by decide)).2.1
    200 (samplePage 2 ["A".toList]) (by decide)
    (List.isPerm_iff.mp (by decide))
    ⟨sampleUrl ++ "page/2/".toList, by decide, "network error".toList,
      by decide⟩

/-- C10 counterexample: page 1 settles without a thrown error (HTTP status
200), but because the second page fails at the transport level the handler
returns 500 rather than the page-1 status, and the body is an error object
rather than a parsed result; so the returned status does not always equal
the page-1 status when page 1 settles. -/
theorem status_passthrough_divergence :
    sampleNetFail sampleUrl =
        FetchOutcome.ok 200 (samplePage 2 ["A".toList]) ∧
      (handler (some (some sampleUrl)) sampleNetFail [0]).1.statusCode =
        500 ∧
      ¬((handler (some (some sampleUrl)) sampleNetFail [0]).1.statusCode =
        200) := by
  exact ⟨by decide, by decide, by decide⟩

/-- C10 (amended): in every run in which page 1's fetch settles without a
thrown error and every planned subsequent fetch also settles without a
thrown error, the returned status code equals the HTTP status of the page-1
response, even when that status is a non-success status such as 404, and
the body carries the parsed (possibly empty) result; HTTP error statuses on
fetched pages are not treated as transport failures. -/
theorem status_passthrough (url : Str) (net : Str → FetchOutcome)
    (order : List Nat) (s : Nat) (h : Html)
    (horig : "https://letterboxd.com/".toList <+: url)
    (h1 : net url = FetchOutcome.ok s h)
    (hperm : order.Perm
      (List.range (pageUrlsFor url (getPageCountFromHtml h)).length))
    (hall : ∀ p ∈ pageUrlsFor url (getPageCountFromHtml h),
      ∃ s2 h2, net p = FetchOutcome.ok s2 h2) :
    (handler (some (some url)) net order).1.statusCode = s ∧
    (handler (some (some url)) net order).1.body =
      Body.okBody
        ((getMovieDataFromHtml h).movies ++
          ((pageUrlsFor url (getPageCountFromHtml h)).map
            (pageMovies net)).flatten)
        (getUserDataFromHtml h).name
        (getUserDataFromHtml h).profilePicUrl := by
  rw [handler_success_run url net order s h horig h1 hperm hall]
  exact ⟨rfl, rfl⟩

/-- Witness for the amended C10 theorem: a single-page 404 response passes
its status through and the body carries the empty parsed result. -/
theorem status_passthrough_witness :
    (handler (some (some sampleUrl)) sampleNet404 []).1.statusCode = 404 ∧
    (handler (some (some sampleUrl)) sampleNet404 []).1.body =
      Body.okBody [] [] none := by
  have hmain := status_passthrough sampleUrl sampleNet404 [] 404
    (samplePage 0 []) (by decide) (by decide)
    (List.isPerm_iff.mp (by decide))
    (by
      intro p hp
      rw [show pageUrlsFor sampleUrl
          (getPageCountFromHtml (samplePage 0 [])) = [] from by decide] at hp
      cases hp)
  exact ⟨hmain.1, hmain.2.trans (by decide)⟩
